import Mathlib

/-!
Verification of the vg_stub name/term formatting fragment.

This file shallowly embeds the data model and operations of
`src/vg_stub/_name.py`, `src/vg_stub/utils.py`,
`src/vg_stub/_terms/_term.py` and `src/vg_stub/text.py`, and proves the
frozen claims about them.  Python strings are modelled as Lean `String`
(`List Char` underneath); Python exceptions (`IndexError`, `TypeError`)
are modelled with `Except String`.  Case operations (`lower`, `upper`,
`capitalize`, `title`) are modelled on the ASCII cased letters, which is
exact for every input exercised here (CJK characters are uncased in
Python as well).
-/

/-- Model of Python `str.lower` applied character-wise (ASCII letters). -/
def pyToLower (c : Char) : Char := c.toLower

/-- Model of Python `str.upper` applied character-wise (ASCII letters). -/
def pyToUpper (c : Char) : Char := c.toUpper

/-- Character-list body of Python `str.capitalize`: first character
upper-cased, all remaining characters lower-cased. -/
def pyCapData : List Char → List Char
  | [] => []
  | c :: cs => pyToUpper c :: cs.map pyToLower

/-- Model of Python `str.capitalize`. -/
def pyCapitalize (s : String) : String := ⟨pyCapData s.data⟩

/-- Whether a character is a cased letter for the purposes of Python
`str.title` (ASCII model). -/
def isCasedC (c : Char) : Bool :=
  ('a' ≤ c && c ≤ 'z') || ('A' ≤ c && c ≤ 'Z')

/-- Character-list body of Python `str.title`: a new word starts at every
character that is not a cased letter; the first cased character of each
word is upper-cased and the remaining cased characters are lower-cased.
The Boolean argument records whether the previous character was cased. -/
def pyTitleData : List Char → Bool → List Char
  | [], _ => []
  | c :: cs, prev =>
    (if isCasedC c then (if prev then pyToLower c else pyToUpper c) else c)
      :: pyTitleData cs (isCasedC c)

/-- Model of Python `str.title`. -/
def pyTitle (s : String) : String := ⟨pyTitleData s.data false⟩

/-- Character-list body of the title-casing the spec describes:
capitalize the first letter of every whitespace-delimited word and
lower-case the rest of each word.  The Boolean argument records whether
the next character starts a word. -/
def specTitleData : List Char → Bool → List Char
  | [], _ => []
  | c :: cs, atStart =>
    (if c.isWhitespace then c
     else if atStart then pyToUpper c else pyToLower c)
      :: specTitleData cs c.isWhitespace

/-- Title-casing as the specification's words define it (whitespace
delimited words); declared for comparison with the code's `pyTitle`. -/
def specTitleCase (s : String) : String := ⟨specTitleData s.data true⟩

/-- Model of Python `" ".join`. -/
def joinSp : List String → String
  | [] => ""
  | [s] => s
  | s :: t :: rest => s ++ " " ++ joinSp (t :: rest)

/-- Splitting a character list at every space, accumulator-style. -/
def spaceSplitData : List Char → List Char → List String
  | [], acc => [⟨acc.reverse⟩]
  | c :: cs, acc =>
    if c = ' ' then ⟨acc.reverse⟩ :: spaceSplitData cs []
    else spaceSplitData cs (c :: acc)

/-- The space-separated components of a string (Python `s.split(" ")`). -/
def spaceSplit (s : String) : List String := spaceSplitData s.data []

/-- Number of space characters in a string. -/
def countSp (s : String) : Nat := s.data.countP (fun c => c = ' ')

/-- Model of Python `s.replace("_", " ")` (single-character replacement
is character-wise). -/
def underscoreToSpace (s : String) : String :=
  ⟨s.data.map (fun c => if c = '_' then ' ' else c)⟩

/-- Model of Python `s.lstrip(": ")`: drop leading colons and spaces. -/
def lstripColonSpace (s : String) : String :=
  ⟨s.data.dropWhile (fun c => c = ':' || c = ' ')⟩

/-- Model of Python `s.rstrip()`: drop trailing whitespace. -/
def rstripWs (s : String) : String :=
  ⟨(s.data.reverse.dropWhile Char.isWhitespace).reverse⟩

/-- Model of Python `s.strip()`: drop leading and trailing whitespace. -/
def pyStrip (s : String) : String :=
  ⟨((s.data.dropWhile Char.isWhitespace).reverse.dropWhile
      Char.isWhitespace).reverse⟩

/-- Decidable equality for the `Except` results used throughout. -/
instance {ε α : Type} [DecidableEq ε] [DecidableEq α] :
    DecidableEq (Except ε α) := fun a b =>
  match a, b with
  | .error x, .error y =>
    if h : x = y then .isTrue (h ▸ rfl)
    else .isFalse (fun hc => h (Except.error.inj hc))
  | .error _, .ok _ => .isFalse (fun hc => Except.noConfusion hc)
  | .ok _, .error _ => .isFalse (fun hc => Except.noConfusion hc)
  | .ok x, .ok y =>
    if h : x = y then .isTrue (h ▸ rfl)
    else .isFalse (fun hc => h (Except.ok.inj hc))

/-- Truthiness of a Python `str | None` value: `None` and the empty
string are falsy. -/
def pyTruthyOpt : Option String → Bool
  | none => false
  | some s => decide (s ≠ "")

/-- Modelled from the spec: the external character-level
Simplified-Chinese conversion service (`zhconv`), restricted to the
characters exercised in this development; all other characters are
unchanged. -/
def hansChar (c : Char) : Char :=
  if c = '電' then '电'
  else if c = '遊' then '游'
  else if c = '戲' then '戏'
  else if c = '動' then '动'
  else if c = '東' then '东'
  else if c = '敗' then '败'
  else c

/-- Embedding of `utils.hans`: character-wise Simplified conversion. -/
def hans (s : String) : String := ⟨s.data.map hansChar⟩

/-- The part of `is_same_title.normalize` that runs before indexing:
`text.replace("_", " ").lstrip(": ").rstrip()`. -/
def preNorm (s : String) : String :=
  rstripWs (lstripColonSpace (underscoreToSpace s))

/-- Embedding of `is_same_title.normalize`: after the pre-normalization,
Python indexes `text[0]`, which raises `IndexError` on an empty string;
otherwise it lower-cases the first character and converts to
Simplified. -/
def normalizeTitle (s : String) : Except String String :=
  match (preNorm s).data with
  | [] => .error "IndexError"
  | c :: cs => .ok (hans ⟨pyToLower c :: cs⟩)

/-- Embedding of `utils.is_same_title`. -/
def is_same_title (t1 t2 : String) : Except String Bool := do
  let n1 ← normalizeTitle t1
  let n2 ← normalizeTitle t2
  return decide (n1 = n2)

/-- Rendering of `mwparserfromhell` `Wikilink(title, text)` as a string. -/
def wlStr (title : String) (text : Option String) : String :=
  match text with
  | none => "[[" ++ title ++ "]]"
  | some t => "[[" ++ title ++ "|" ++ t ++ "]]"

/-- Embedding of `utils.wikilink`. -/
def wikilink (title : String) (text : Option String) (force : Bool) :
    Except String String :=
  if force then .ok (wlStr title text)
  else match text with
    | none => .ok ("[[" ++ underscoreToSpace title ++ "]]")
    | some txt => do
      let same ← is_same_title title txt
      if same then return "[[" ++ txt ++ "]]"
      else return "[[" ++ title ++ "|" ++ txt ++ "]]"

/-- Embedding of `_terms._term.Term`: the state of a term object. -/
structure Term where
  modifier : String
  head : String
  article : Option String
  cat : Option String
  stub : Option String
  _linked : Bool
deriving DecidableEq, Repr

/-- Embedding of `Term.__init__`: `_linked` starts false. -/
def mkTerm (modifier head : String)
    (article cat stub : Option String) : Term :=
  ⟨modifier, head, article, cat, stub, false⟩

/-- Embedding of the `Term.name` property. -/
def Term.name (t : Term) : String := t.modifier ++ t.head

/-- Embedding of `Term.text(full, link)`: returns the updated object
state together with the produced string (`Except` models the
`IndexError` that `wikilink` may raise). -/
def Term.text (t : Term) (full link : Bool) :
    Term × Except String String :=
  let display := if full then t.name else t.modifier
  if !link then (t, .ok display)
  else match t.article with
    | none => (t, .ok display)
    | some a =>
      if t._linked then (t, .ok display)
      else ({ t with _linked := true }, wikilink a (some display) false)

/-- Embedding of `Term.cat_link(sort)`. -/
def Term.cat_link (t : Term) (sort : Option String) :
    Option (Except String String) :=
  match t.cat with
  | none => none
  | some c => some (wikilink ("Category:" ++ c) sort false)

/-- Embedding of `Term.stub_tag()`. -/
def Term.stub_tag (t : Term) : Option String :=
  match t.stub with
  | none => none
  | some s => some ("\x7b\x7b" ++ s ++ "\x7d\x7d")

/-- The operations a `Term` object exposes after construction. -/
inductive TermOp where
  | text (full link : Bool)
  | cat_link (sort : Option String)
  | stub_tag
deriving DecidableEq, Repr

/-- The state of a `Term` after performing one operation (`cat_link` and
`stub_tag` do not mutate the object; `text` may set `_linked`). -/
def applyOp (t : Term) : TermOp → Term
  | .text full link => (Term.text t full link).1
  | .cat_link _ => t
  | .stub_tag => t

/-- The RPG example term from the `Term` docstring. -/
def rpgTerm : Term :=
  mkTerm "角色扮演" "遊戲" (some "電子角色扮演遊戲") none none

/-- Modelled from the spec: the external Chinese-to-Pinyin conversion
service (`pypinyin`), as a per-character reading table (toned reading,
toneless reading) on the characters exercised in this development;
characters outside the table have no reading and pass through. -/
def pinyinTable (c : Char) : Option (String × String) :=
  if c = '幻' then some ("huàn", "huan")
  else if c = '想' then some ("xiǎng", "xiang")
  else if c = '传' then some ("chuán", "chuan")
  else if c = '奇' then some ("qí", "qi")
  else if c = '時' then some ("shí", "shi")
  else if c = '空' then some ("kōng", "kong")
  else if c = '境' then some ("jìng", "jing")
  else none

/-- One passthrough segment from an accumulated run of characters
without a Pinyin reading (the run is held in reverse). -/
def flushRun (run : List Char) : List (String × String) :=
  if run = [] then []
  else [(⟨run.reverse⟩, ⟨run.reverse⟩)]

/-- Modelled from the spec: segmentation of `pypinyin` output — each
character with a reading is one syllable item, and each maximal run of
characters without a reading passes through as a single item, identical
in the toned and toneless outputs. -/
def pinyinSegsAux : List Char → List Char → List (String × String)
  | [], run => flushRun run
  | c :: cs, run =>
    match pinyinTable c with
    | some p => flushRun run ++ (p :: pinyinSegsAux cs [])
    | none => pinyinSegsAux cs (c :: run)

/-- The (toned, toneless) item list `pypinyin` produces for a text. -/
def pinyinSegs (text : String) : List (String × String) :=
  pinyinSegsAux text.data []

/-- The first (toned) readings, as `[py[0] for py in pinyin(text)]`. -/
def pypinyinList (text : String) : List String :=
  (pinyinSegs text).map (·.1)

/-- The toneless readings, as `lazy_pinyin(text)`. -/
def lazyPinyinList (text : String) : List String :=
  (pinyinSegs text).map (·.2)

/-- Embedding of `_name.to_pinyin`: capitalize each item and join with
single spaces; toned readings when `tone` is true, toneless otherwise. -/
def to_pinyin (text : String) (tone : Bool) : String :=
  if tone then joinSp ((pypinyinList text).map pyCapitalize)
  else joinSp ((lazyPinyinList text).map pyCapitalize)

/-- Modelled from the spec: the external Japanese word-segmentation and
romanization service (`pykakasi`), as the list of raw hepburn segments
it returns, on the inputs exercised in this development; any other
non-empty input is treated as a single segment. -/
def kakasiConvert (text : String) : List String :=
  if text = "テイルズ オブ ファンタジア" then ["teiruzu", "obu", "fantajia"]
  else if text = "幻想物語" then ["gensou", "monogatari"]
  else if text = "キミのいる未来へ" then ["kimi", "noiru", "mirai", "he"]
  else if text = "ドラゴンクエスト" then ["doragon", "kuesuto"]
  else if text = "" then []
  else [text]

/-- Embedding of the `modified_hepburn_mapping` particle table of
`_name.to_romaji`. -/
def hepburnMap (h : String) : Option String :=
  if h = "obu" then some "obu"
  else if h = "he" then some "e"
  else if h = "ga" then some "ga"
  else if h = "no" then some "no"
  else if h = "wo" then some "o"
  else if h = "to" then some "to"
  else if h = "ha" then some "wa"
  else none

/-- Embedding of the word loop of `_name.to_romaji`: strip each segment,
drop it when blank, otherwise look the unmodified word up in the
particle table and fall back to capitalization. -/
def romajiWords : List String → List String
  | [] => []
  | seg :: rest =>
    let hepburn := pyStrip seg
    if hepburn = "" then romajiWords rest
    else ((hepburnMap hepburn).getD (pyCapitalize hepburn)) :: romajiWords rest

/-- Embedding of `_name.to_romaji`: the processed words joined with
single spaces. -/
def to_romaji (text : String) : String :=
  joinSp (romajiWords (kakasiConvert text))

/-- Embedding of `_name.Name`: the state of a name object after
`__init__`. -/
structure Name where
  lang : String
  name : String
  translit : String
  sortkey : String
  lit : Option String
deriving DecidableEq, Repr

/-- Embedding of `Name._translit`: a truthy (non-empty) override is
returned unchanged, otherwise the language-specific derivation runs. -/
def nameTranslit (lang name : String) (value : Option String) : String :=
  if pyTruthyOpt value then value.getD ""
  else if lang = "zh" then to_pinyin name true
  else if lang = "ja" then to_romaji name
  else name

/-- Embedding of `Name._sortkey`: a truthy (non-empty) override is
returned unchanged, otherwise the language-specific derivation runs on
the already-derived transliteration. -/
def nameSortkey (lang name translit : String) (value : Option String) :
    String :=
  if pyTruthyOpt value then value.getD ""
  else if lang = "zh" then to_pinyin name false
  else if lang = "ja" then pyTitle (to_romaji name)
  else pyTitle translit

/-- Embedding of `Name.__init__`: the transliteration is derived first
and the sort key derivation may consult it. -/
def mkName (lang name : String) (translit sortkey lit : Option String) :
    Name :=
  { lang := lang, name := name,
    translit := nameTranslit lang name translit,
    sortkey := nameSortkey lang name (nameTranslit lang name translit)
      sortkey,
    lit := lit }

/-- The main name chosen by `text.build_names`: a truthy Chinese
argument wins (a `Name` is always truthy, a string only when
non-empty), then a foreign name's transliteration-or-name, then the
PAGENAME template. -/
def foreignMain : Option Name → String
  | some f => if f.translit ≠ "" then f.translit else f.name
  | none => "\x7b\x7bsubst:PAGENAME\x7d\x7d"

/-- The `main_name` local of `text.build_names`. -/
def mainNameOf : Option (Sum String Name) → Option Name → String
  | some (.inl s), fo => if s ≠ "" then s else foreignMain fo
  | some (.inr n), _ => n.name
  | none, fo => foreignMain fo

/-- Embedding of `text.build_names`: when a foreign annotation is
required the code invokes the string-valued property `Name.efn` as a
function, which raises `TypeError`; the no-annotation paths return the
bolded, book-marked main name. -/
def build_names (chinese : Option (Sum String Name))
    (foreign : Option Name) : Except String String :=
  let main := mainNameOf chinese foreign
  match foreign with
  | none => .ok ("《\x27\x27\x27" ++ main ++ "\x27\x27\x27》")
  | some f =>
    if pyTitle f.name = pyTitle main then .ok ("《\x27\x27\x27" ++ main ++ "\x27\x27\x27》")
    else .error "TypeError"

/-- A `String.mk` is empty exactly when its character list is. -/
lemma strMk_eq_empty_iff (l : List Char) : (⟨l⟩ : String) = "" ↔ l = [] := by
  constructor
  · intro h; exact congrArg String.data h
  · intro h; rw [h]

/-- A string is empty exactly when its character list is. -/
lemma str_eq_empty_iff (s : String) : s = "" ↔ s.data = [] := by
  cases s
  exact strMk_eq_empty_iff _

/-- Appending strings appends their character lists. -/
lemma strDataAppend (a b : String) : (a ++ b).data = a.data ++ b.data := by
  cases a; cases b; rfl

/-- A `Term` whose `_linked` flag is set is returned unchanged by
`Term.text`. -/
lemma text_fst_of_linked (t : Term) (h : t._linked = true)
    (full link : Bool) : (Term.text t full link).1 = t := by
  cases link
  · simp [Term.text]
  · cases ha : t.article <;> simp [Term.text, ha, h]

/-- A `Term` whose `_linked` flag is set renders plain display text even
when linking is requested. -/
lemma text_snd_of_linked (t : Term) (h : t._linked = true) (full : Bool) :
    (Term.text t full true).2 = .ok (if full then t.name else t.modifier) := by
  cases ha : t.article <;> simp [Term.text, ha, h]

/-- No single operation clears the `_linked` flag. -/
lemma applyOp_linked (t : Term) (op : TermOp) (h : t._linked = true) :
    (applyOp t op)._linked = true := by
  cases op with
  | text full link => rw [applyOp, text_fst_of_linked t h]; exact h
  | cat_link _ => exact h
  | stub_tag => exact h

/-- No sequence of operations clears the `_linked` flag. -/
lemma foldl_linked : ∀ (ops : List TermOp) (t : Term),
    t._linked = true → (ops.foldl applyOp t)._linked = true := by
  intro ops
  induction ops with
  | nil => intro t h; exact h
  | cons op rest ih =>
    intro t h
    exact ih (applyOp t op) (applyOp_linked t op h)

/-- `normalize` raises when the pre-normalized string is empty. -/
lemma normalizeTitle_err_of_pre (s : String) (h : preNorm s = "") :
    normalizeTitle s = .error "IndexError" := by
  unfold normalizeTitle
  rw [h]

/-- `normalize` either succeeds or raises `IndexError`. -/
lemma normalizeTitle_cases (s : String) :
    (∃ v, normalizeTitle s = .ok v) ∨
      normalizeTitle s = .error "IndexError" := by
  cases h : (preNorm s).data with
  | nil => exact Or.inr (by unfold normalizeTitle; rw [h])
  | cons c cs => exact Or.inl ⟨_, by unfold normalizeTitle; rw [h]⟩

/-- `is_same_title` raises when its second argument pre-normalizes to
the empty string. -/
lemma is_same_title_err_right (t1 t2 : String) (h : preNorm t2 = "") :
    is_same_title t1 t2 = .error "IndexError" := by
  unfold is_same_title
  rcases normalizeTitle_cases t1 with ⟨v, hv⟩ | hv <;>
    simp [hv, normalizeTitle_err_of_pre t2 h, Bind.bind, Except.bind]

/-- `is_same_title` raises when its first argument pre-normalizes to
the empty string. -/
lemma is_same_title_err_left (t1 t2 : String) (h : preNorm t1 = "") :
    is_same_title t1 t2 = .error "IndexError" := by
  unfold is_same_title
  simp [normalizeTitle_err_of_pre t1 h, Bind.bind, Except.bind]

/-- `wikilink` without `force` raises when the display text
pre-normalizes to the empty string. -/
lemma wikilink_err_text (title text : String) (h : preNorm text = "") :
    wikilink title (some text) false = .error "IndexError" := by
  unfold wikilink
  simp [is_same_title_err_right title text h, Bind.bind, Except.bind]

/-- `wikilink` without `force` raises when the title pre-normalizes to
the empty string. -/
lemma wikilink_err_title (title text : String) (h : preNorm title = "") :
    wikilink title (some text) false = .error "IndexError" := by
  unfold wikilink
  simp [is_same_title_err_left title text h, Bind.bind, Except.bind]

/-- `wikilink` collapses equivalent titles to the bare display form. -/
lemma wikilink_same (title text : String)
    (h : is_same_title title text = .ok true) :
    wikilink title (some text) false = .ok ("[[" ++ text ++ "]]") := by
  unfold wikilink
  simp [h, Bind.bind, Except.bind, Pure.pure, Except.pure]

/-- `pyTitleData` preserves length. -/
lemma pyTitleData_length : ∀ (l : List Char) (b : Bool),
    (pyTitleData l b).length = l.length := by
  intro l
  induction l with
  | nil => intro b; rfl
  | cons c cs ih => intro b; simp [pyTitleData, ih]

/-- `pyTitle` returns the empty string only on the empty string. -/
lemma pyTitle_eq_empty_iff (s : String) : pyTitle s = "" ↔ s = "" := by
  unfold pyTitle
  rw [strMk_eq_empty_iff, str_eq_empty_iff]
  constructor
  · intro h
    have := congrArg List.length h
    rw [pyTitleData_length] at this
    exact List.length_eq_zero.mp this
  · intro h; rw [h]; rfl

/-- An empty-string transliteration override is as falsy as `None`. -/
lemma pyTruthyOpt_some_empty : pyTruthyOpt (some "") = false := by decide

/-- A non-empty override is truthy. -/
lemma pyTruthyOpt_some_ne (v : String) (h : v ≠ "") :
    pyTruthyOpt (some v) = true := by
  simp [pyTruthyOpt, h]

/-- `pyCapData` returns the empty list only on the empty list. -/
lemma pyCapData_eq_nil_iff (l : List Char) : pyCapData l = [] ↔ l = [] := by
  cases l <;> simp [pyCapData]

/-- `pyCapitalize` keeps non-empty strings non-empty. -/
lemma pyCapitalize_ne_empty (s : String) (h : s ≠ "") :
    pyCapitalize s ≠ "" := by
  intro hc
  apply h
  unfold pyCapitalize at hc
  rw [strMk_eq_empty_iff, pyCapData_eq_nil_iff] at hc
  rw [str_eq_empty_iff]
  exact hc

/-- The particle table never yields an empty word. -/
lemma hepburnMap_ne_empty : ∀ (h : String) (v : String),
    hepburnMap h = some v → v ≠ "" := by
  intro h v hv
  unfold hepburnMap at hv
  split_ifs at hv <;> injection hv with hh <;> subst hh <;> decide

/-- The word loop of `to_romaji` is: strip, drop blanks, then particle
table with capitalization fallback. -/
lemma romajiWords_eq (segs : List String) :
    romajiWords segs =
      (((segs.map pyStrip).filter (fun h => h ≠ "")).map
        (fun h => (hepburnMap h).getD (pyCapitalize h))) := by
  induction segs with
  | nil => rfl
  | cons seg rest ih =>
    by_cases h : pyStrip seg = "" <;> simp [romajiWords, h, ih]

/-- No word produced by the `to_romaji` loop is empty. -/
lemma romajiWords_ne_empty : ∀ (segs : List String) (w : String),
    w ∈ romajiWords segs → w ≠ "" := by
  intro segs
  induction segs with
  | nil => intro w hw; exact absurd hw (List.not_mem_nil w)
  | cons seg rest ih =>
    intro w hw
    by_cases h : pyStrip seg = ""
    · rw [show romajiWords (seg :: rest) = romajiWords rest by
        simp [romajiWords, h]] at hw
      exact ih w hw
    · rw [show romajiWords (seg :: rest) =
          ((hepburnMap (pyStrip seg)).getD (pyCapitalize (pyStrip seg)))
            :: romajiWords rest by simp [romajiWords, h]] at hw
      rcases List.mem_cons.mp hw with rfl | h2
      · cases hm : hepburnMap (pyStrip seg) with
        | none => simp [hm]; exact pyCapitalize_ne_empty _ h
        | some v => simp [hm]; exact hepburnMap_ne_empty _ v hm
      · exact ih w h2

/-- Space count of a `" ".join`: the items' space counts plus the
separators. -/
lemma joinSp_countSp : ∀ l : List String,
    countSp (joinSp l) = (l.map countSp).sum + (l.length - 1) := by
  intro l
  induction l with
  | nil => simp [joinSp, countSp]
  | cons s rest ih =>
    cases rest with
    | nil => simp [joinSp, countSp]
    | cons t r2 =>
      have hj : joinSp (s :: t :: r2) = s ++ " " ++ joinSp (t :: r2) := rfl
      rw [hj]
      unfold countSp at ih ⊢
      rw [strDataAppend, strDataAppend]
      simp only [List.countP_append, List.map_cons, List.sum_cons,
        List.length_cons]
      have hsp : (" " : String).data.countP (fun c => decide (c = ' ')) = 1 := by
        decide
      rw [hsp, ih]
      simp only [List.map_cons, List.sum_cons, List.length_cons]
      omega

/-- Length of the accumulator space splitter: one more than the number
of spaces. -/
lemma spaceSplitData_length : ∀ (l acc : List Char),
    (spaceSplitData l acc).length = l.countP (fun c => c = ' ') + 1 := by
  intro l
  induction l with
  | nil => intro acc; rfl
  | cons c cs ih =>
    intro acc
    by_cases h : c = ' ' <;>
      simp [spaceSplitData, h, ih, List.countP_cons]

/-- The number of space-separated components of a string. -/
lemma spaceSplit_length (s : String) :
    (spaceSplit s).length = countSp s + 1 := by
  unfold spaceSplit countSp
  exact spaceSplitData_length _ _

/-- Every passthrough segment has identical toned and toneless forms. -/
lemma mem_flushRun {run : List Char} {p : String × String}
    (hp : p ∈ flushRun run) : p.1 = p.2 := by
  unfold flushRun at hp
  split at hp
  · exact absurd hp (List.not_mem_nil p)
  · rw [List.mem_singleton] at hp; subst hp; rfl

/-- Every item the pinyin model produces is either a passthrough pair or
a reading from the table. -/
lemma segsAux_shape : ∀ (cs run : List Char) (p : String × String),
    p ∈ pinyinSegsAux cs run →
      p.1 = p.2 ∨ ∃ c, pinyinTable c = some p := by
  intro cs
  induction cs with
  | nil => intro run p hp; exact Or.inl (mem_flushRun hp)
  | cons c cs ih =>
    intro run p hp
    cases h : pinyinTable c with
    | some q =>
      simp only [pinyinSegsAux, h] at hp
      rcases List.mem_append.mp hp with h1 | h2
      · exact Or.inl (mem_flushRun h1)
      · rcases List.mem_cons.mp h2 with rfl | h3
        · exact Or.inr ⟨c, h⟩
        · exact ih [] p h3
    | none =>
      simp only [pinyinSegsAux, h] at hp
      exact ih _ p hp

/-- The toned and toneless readings of one table entry have the same
space count after capitalization. -/
lemma table_countSp {c : Char} {p : String × String}
    (h : pinyinTable c = some p) :
    countSp (pyCapitalize p.1) = countSp (pyCapitalize p.2) := by
  unfold pinyinTable at h
  split_ifs at h <;> injection h with hh <;> subst hh <;> decide

/-- Equal space-count sums for the toned and toneless item lists. -/
lemma sum_countSp_eq : ∀ (segs : List (String × String)),
    (∀ p ∈ segs, p.1 = p.2 ∨ ∃ c, pinyinTable c = some p) →
    (segs.map (fun p => countSp (pyCapitalize p.1))).sum =
      (segs.map (fun p => countSp (pyCapitalize p.2))).sum := by
  intro segs
  induction segs with
  | nil => intro _; rfl
  | cons p rest ih =>
    intro h
    simp only [List.map_cons, List.sum_cons]
    have hrest := ih (fun q hq => h q (List.mem_cons_of_mem p hq))
    rcases h p (List.mem_cons_self p rest) with h1 | ⟨c, h2⟩
    · rw [h1, hrest]
    · rw [table_countSp h2, hrest]

/-- `None` overrides are falsy. -/
lemma pyTruthyOpt_none : pyTruthyOpt none = false := rfl

/-- C1: once `_linked` is true, no sequence of `text`, `cat_link` or
`stub_tag` operations ever resets it, and every later `text` call with
linking requested returns the unlinked plain display text. -/
theorem c1_linked_never_reverts (t : Term) (h : t._linked = true)
    (ops : List TermOp) :
    (ops.foldl applyOp t)._linked = true ∧
    ∀ full, (Term.text (ops.foldl applyOp t) full true).2 =
      .ok (if full then (ops.foldl applyOp t).name
           else (ops.foldl applyOp t).modifier) := by
  have hl := foldl_linked ops t h
  exact ⟨hl, fun full => text_snd_of_linked _ hl full⟩

/-- Witness for C1 at the docstring RPG term after its first link. -/
theorem c1_witness :
    (([TermOp.cat_link none, TermOp.stub_tag, TermOp.text true true].foldl
        applyOp (Term.text rpgTerm true true).1)._linked = true) ∧
    ((Term.text (Term.text rpgTerm true true).1 true true).2 =
      .ok "角色扮演遊戲") := by
  have h : (Term.text rpgTerm true true).1._linked = true := by decide
  have hc := c1_linked_never_reverts (Term.text rpgTerm true true).1 h
    [TermOp.cat_link none, TermOp.stub_tag, TermOp.text true true]
  have h0 := c1_linked_never_reverts (Term.text rpgTerm true true).1 h []
  exact ⟨hc.1, (h0.2 true).trans (by decide)⟩

/-- C2: `Term.text` renders `modifier ++ head` when `full` and just the
modifier otherwise; without linking, without an article, or when already
linked it returns the display unchanged with no state change; otherwise
it sets `_linked` and returns the display formatted as a link to the
article; on the docstring RPG term the first linking call produces the
piped link and the second the plain name. -/
theorem c2_renderText_cases :
    (∀ (t : Term) (full link : Bool),
      (link = false →
        Term.text t full link =
          (t, .ok (if full then t.name else t.modifier))) ∧
      (t.article = none →
        Term.text t full link =
          (t, .ok (if full then t.name else t.modifier))) ∧
      (t._linked = true →
        Term.text t full link =
          (t, .ok (if full then t.name else t.modifier))) ∧
      (∀ a, link = true → t.article = some a → t._linked = false →
        Term.text t full link =
          ({ t with _linked := true },
            wikilink a (some (if full then t.name else t.modifier)) false))) ∧
    ((Term.text rpgTerm true true).2 =
        .ok "[[電子角色扮演遊戲|角色扮演遊戲]]" ∧
      (Term.text (Term.text rpgTerm true true).1 true true).2 =
        .ok "角色扮演遊戲") := by
  refine ⟨fun t full link => ⟨?_, ?_, ?_, ?_⟩, by decide, by decide⟩
  · intro h; subst h; simp [Term.text]
  · intro h; cases link <;> simp [Term.text, h]
  · intro h
    cases link
    · simp [Term.text]
    · cases ha : t.article <;> simp [Term.text, ha, h]
  · intro a hl ha hnl; subst hl; simp [Term.text, ha, hnl]

/-- Witness for C2 at the docstring RPG term. -/
theorem c2_witness :
    (Term.text rpgTerm true false =
      (rpgTerm, .ok (if true then rpgTerm.name else rpgTerm.modifier))) ∧
    (Term.text rpgTerm true true =
      ({ rpgTerm with _linked := true },
        wikilink "電子角色扮演遊戲"
          (some (if true then rpgTerm.name else rpgTerm.modifier)) false)) := by
  exact ⟨(c2_renderText_cases.1 rpgTerm true false).1 rfl,
    (c2_renderText_cases.1 rpgTerm true true).2.2.2 "電子角色扮演遊戲"
      rfl rfl rfl⟩

/-- C3 fails as stated: the code's sort key uses Python `str.title`,
which starts a new word at every non-letter, not the whitespace-word
title-casing the claim defines; on `Name("en", "x-ray")` they differ. -/
theorem c3_counterexample :
    (mkName "en" "x-ray" none none none).sortkey ≠
      specTitleCase ((mkName "en" "x-ray" none none none).translit) := by
  decide

/-- C3 (amended): without a sort-key override, the Japanese sort key is
the Python title-casing of `to_romaji(native_text)` and every language
other than zh/ja gets the Python title-casing of the stored
transliteration, where Python title-casing starts a new word at every
character that is not a cased letter (not only at whitespace). -/
theorem c3_sortkey_python_title :
    (∀ (lang name : String) (tov : Option String),
      lang ≠ "zh" → lang ≠ "ja" →
      (mkName lang name tov none none).sortkey =
        pyTitle ((mkName lang name tov none none).translit)) ∧
    (∀ (name : String) (tov : Option String),
      (mkName "ja" name tov none none).sortkey = pyTitle (to_romaji name)) := by
  constructor
  · intro lang name tov h1 h2
    simp [mkName, nameSortkey, pyTruthyOpt, h1, h2]
  · intro name tov
    simp only [mkName]
    unfold nameSortkey
    rw [if_neg (by decide : ¬ (pyTruthyOpt none = true))]
    rw [if_neg (by decide : ¬ (("ja" : String) = "zh"))]
    rw [if_pos rfl]

/-- Witness for C3 (amended) at an English and a Japanese name. -/
theorem c3_witness :
    ((mkName "en" "x-ray" none none none).sortkey =
      pyTitle ((mkName "en" "x-ray" none none none).translit)) ∧
    ((mkName "ja" "幻想物語" none none none).sortkey =
      pyTitle (to_romaji "幻想物語")) ∧
    ((mkName "en" "x-ray" none none none).sortkey = "X-Ray") := by
  exact ⟨c3_sortkey_python_title.1 "en" "x-ray" none (by decide) (by decide),
    c3_sortkey_python_title.2 "幻想物語" none, by decide⟩

/-- C4: an empty-string transliteration or sort-key override yields
exactly the transliteration and sort key of the same construction with
the override absent. -/
theorem c4_empty_override_fall_through :
    (∀ (lang name : String) (sov lit : Option String),
      (mkName lang name (some "") sov lit).translit =
          (mkName lang name none sov lit).translit ∧
        (mkName lang name (some "") sov lit).sortkey =
          (mkName lang name none sov lit).sortkey) ∧
    (∀ (lang name : String) (tov lit : Option String),
      (mkName lang name tov (some "") lit).translit =
          (mkName lang name tov none lit).translit ∧
        (mkName lang name tov (some "") lit).sortkey =
          (mkName lang name tov none lit).sortkey) := by
  constructor <;> intro lang name ov lit <;>
    simp [mkName, nameTranslit, nameSortkey, pyTruthyOpt_some_empty,
      pyTruthyOpt_none]

/-- C5 fails as stated: an empty native text for a non-zh/ja language
yields an empty transliteration and an empty sort key. -/
theorem c5_counterexample :
    (mkName "en" "" none none none).translit = "" ∧
      (mkName "en" "" none none none).sortkey = "" := by
  decide

/-- C5 (amended): non-empty overrides are stored verbatim (hence
non-empty), and for every language other than zh/ja the derived
transliteration and sort key are non-empty exactly when the native text
is non-empty; an empty native text yields empty values. -/
theorem c5_nonempty_amended :
    (∀ (lang name v : String), v ≠ "" →
      (mkName lang name (some v) (some v) none).translit = v ∧
        (mkName lang name (some v) (some v) none).sortkey = v) ∧
    (∀ (lang name : String), lang ≠ "zh" → lang ≠ "ja" →
      ((mkName lang name none none none).translit = "" ↔ name = "") ∧
        ((mkName lang name none none none).sortkey = "" ↔ name = "")) := by
  constructor
  · intro lang name v hv
    have ht := pyTruthyOpt_some_ne v hv
    constructor <;> simp [mkName, nameTranslit, nameSortkey, ht]
  · intro lang name h1 h2
    have e1 : (mkName lang name none none none).translit = name := by
      simp [mkName, nameTranslit, pyTruthyOpt, h1, h2]
    have e2 : (mkName lang name none none none).sortkey = pyTitle name := by
      simp [mkName, nameTranslit, nameSortkey, pyTruthyOpt, h1, h2]
    rw [e1, e2]
    exact ⟨Iff.rfl, pyTitle_eq_empty_iff name⟩

/-- Witness for C5 (amended) at concrete names. -/
theorem c5_witness :
    ((mkName "en" "x" (some "Y") (some "Y") none).translit = "Y") ∧
    ((mkName "en" "x" none none none).translit = "" ↔ ("x" : String) = "") := by
  exact ⟨(c5_nonempty_amended.1 "en" "x" "Y" (by decide)).1,
    (c5_nonempty_amended.2 "en" "x" (by decide) (by decide)).1⟩

/-- C6: the `to_romaji` output is the stripped segments with blanks
dropped, each remaining word replaced by its particle-table value when
the unmodified word matches and capitalized otherwise, joined with
single spaces; and no output word is empty. -/
theorem c6_romaji_words (text : String) :
    to_romaji text =
      joinSp ((((kakasiConvert text).map pyStrip).filter
          (fun h => h ≠ "")).map
        (fun h => (hepburnMap h).getD (pyCapitalize h))) ∧
    ∀ w ∈ romajiWords (kakasiConvert text), w ≠ "" := by
  refine ⟨?_, fun w hw => romajiWords_ne_empty _ w hw⟩
  rw [to_romaji, romajiWords_eq]

/-- Witness for C6 at a docstring input. -/
theorem c6_witness :
    ("Gensou" ∈ romajiWords (kakasiConvert "幻想物語")) ∧
      ("Gensou" : String) ≠ "" := by
  have h : "Gensou" ∈ romajiWords (kakasiConvert "幻想物語") := by decide
  exact ⟨h, (c6_romaji_words "幻想物語").2 "Gensou" h⟩

/-- C7: toned and toneless `to_pinyin` outputs always have the same
number of space-separated syllables. -/
theorem c7_pinyin_syllable_count (text : String) :
    (spaceSplit (to_pinyin text true)).length =
      (spaceSplit (to_pinyin text false)).length := by
  have h : countSp (to_pinyin text true) = countSp (to_pinyin text false) := by
    show countSp (joinSp ((pypinyinList text).map pyCapitalize)) =
      countSp (joinSp ((lazyPinyinList text).map pyCapitalize))
    rw [joinSp_countSp, joinSp_countSp]
    unfold pypinyinList lazyPinyinList
    simp only [List.map_map, Function.comp_def, List.length_map]
    rw [sum_countSp_eq (pinyinSegs text)
      (fun p hp => segsAux_shape _ _ p hp)]
  rw [spaceSplit_length, spaceSplit_length, h]

/-- C8: whenever a foreign name is present and its name differs under
title-casing from the chosen main name, `build_names` raises
`TypeError` by calling the string-valued property `efn`. -/
theorem c8_build_names_type_error (chinese : Option (Sum String Name))
    (f : Name)
    (h : pyTitle f.name ≠ pyTitle (mainNameOf chinese (some f))) :
    build_names chinese (some f) = .error "TypeError" := by
  unfold build_names
  simp [h]

/-- Witness for C8 at the docstring Dragon Quest example. -/
theorem c8_witness :
    build_names (some (Sum.inl "DRAGON QUEST"))
        (some (mkName "ja" "ドラゴンクエスト" (some "Doragon Kuesuto")
          none none)) =
      .error "TypeError" := by
  exact c8_build_names_type_error _ _ (by decide)

/-- C9: `wikilink` without `force` raises `IndexError` whenever the
display text or the title pre-normalizes to the empty string, and
`Term.cat_link` with an empty sort key raises instead of returning a
category tag. -/
theorem c9_wikilink_index_error :
    (∀ title text : String, preNorm text = "" →
      wikilink title (some text) false = .error "IndexError") ∧
    (∀ title text : String, preNorm title = "" →
      wikilink title (some text) false = .error "IndexError") ∧
    (∀ (t : Term) (c : String), t.cat = some c →
      Term.cat_link t (some "") = some (.error "IndexError")) := by
  refine ⟨wikilink_err_text, wikilink_err_title, ?_⟩
  intro t c hc
  unfold Term.cat_link
  rw [hc]
  exact congrArg some (wikilink_err_text _ "" rfl)

/-- Witness for C9 at an empty display text and a concrete term. -/
theorem c9_witness :
    (wikilink "X" (some "") false = .error "IndexError") ∧
    (Term.cat_link (mkTerm "動作" "遊戲" none (some "動作遊戲") none)
        (some "") = some (.error "IndexError")) := by
  exact ⟨c9_wikilink_index_error.1 "X" "" rfl,
    c9_wikilink_index_error.2.2 _ "動作遊戲" rfl⟩

/-- C10: when `is_same_title` judges title and text equivalent,
`wikilink` without `force` collapses to `[[text]]`; hence a term whose
article is equivalent to its display name links as `[[display]]` with
no pipe. -/
theorem c10_wikilink_collapse :
    (∀ title text : String, is_same_title title text = .ok true →
      wikilink title (some text) false = .ok ("[[" ++ text ++ "]]")) ∧
    (∀ (t : Term) (a : String), t.article = some a → t._linked = false →
      is_same_title a t.name = .ok true →
      (Term.text t true true).2 = .ok ("[[" ++ t.name ++ "]]")) := by
  refine ⟨wikilink_same, ?_⟩
  intro t a ha hl hs
  simp only [Term.text, ha, hl, Bool.not_true, Bool.false_eq_true,
    if_false, if_true]
  exact wikilink_same a t.name hs

/-- Witness for C10 at a term whose article equals its name. -/
theorem c10_witness :
    (Term.text (mkTerm "動作" "遊戲" (some "動作遊戲") none none)
        true true).2 = .ok "[[動作遊戲]]" := by
  have h := c10_wikilink_collapse.2
    (mkTerm "動作" "遊戲" (some "動作遊戲") none none) "動作遊戲"
    rfl rfl (by decide)
  exact h.trans (by decide)
